import Mathlib

/-!
Verification development for the Marketing-Messaging-Analyzer (MIA) repository.

The embedded code is `llm_service.py` (response parsing, retry loop, heuristic
fallback, orchestration) together with the configuration defaults of
`settings.py`.  Python strings are modelled as Lean `String` / `List Char`;
Python `int` values as `Int` (or `Nat` where the source value is a count);
a raised `LLMServiceError` is modelled as the `Except.error` branch carrying
the exception's message.  Whitespace and lower-casing are modelled on the
ASCII subset (Python's `str.strip` / `str.lower` agree with these on ASCII,
which is all the analysed claims exercise).
-/

namespace Mia

/-- Whitespace predicate modelling Python's character class in `str.strip`
and the regex class on the ASCII subset. -/
def isWs (c : Char) : Bool := c.isWhitespace

/-- Python `s.strip()`: drop whitespace from both ends. -/
def trimL (l : List Char) : List Char :=
  ((l.dropWhile isWs).reverse.dropWhile isWs).reverse

/-- Right-hand half of `str.strip` (trailing-whitespace removal), used to
state how stripping interacts with list concatenation. -/
def trimR (l : List Char) : List Char := (l.reverse.dropWhile isWs).reverse

/-- Lower-casing of one character (ASCII model of Python `str.lower`). -/
def lowChar (c : Char) : Char := c.toLower

/-- Python `s.lower()`. -/
def lowerStr (s : String) : String := (s.toList.map lowChar).asString

/-- Does `needle` occur at the head of `hay`? -/
def startsWithL : List Char → List Char → Bool
  | [], _ => true
  | _ :: _, [] => false
  | a :: as, b :: bs => a == b && startsWithL as bs

/-- Does `needle` occur anywhere in `hay`?  (Python's `needle in hay`;
the empty needle occurs in every string, as in Python.) -/
def subOccurs (needle : List Char) : List Char → Bool
  | [] => startsWithL needle []
  | c :: rest => startsWithL needle (c :: rest) || subOccurs needle rest

/-- Python `needle in hay` on strings. -/
def strContains (hay needle : String) : Bool := subOccurs needle.toList hay.toList

/-- Case-insensitive prefix test, modelling `re.IGNORECASE` label matching. -/
def ciStarts : List Char → List Char → Bool
  | [], _ => true
  | _ :: _, [] => false
  | a :: as, b :: bs => (lowChar a == lowChar b) && ciStarts as bs

/-- Leftmost-position regex search: try the matcher `f` at every start
position from the left, as `re.search` does, returning the first success. -/
def searchPos (f : List Char → Option α) : List Char → Option α
  | [] => f []
  | c :: rest =>
    match f (c :: rest) with
    | some r => some r
    | none => searchPos f rest

/-- Numeric value of a decimal digit character. -/
def digitVal (c : Char) : Nat := c.toNat - '0'.toNat

/-- Value of a digit string, as Python `int` on a digit-only string. -/
def digitsToNat (l : List Char) : Nat := l.foldl (fun a c => 10 * a + digitVal c) 0

/-! ## Heuristic Fallback Engine (`_fallback_local_analysis`) -/

/-- One `{phrase, reason}` entry of `conversion_killers`. -/
structure Killer where
  phrase : String
  reason : String
  deriving DecidableEq, Repr

/-- The result dictionary of the service.  Optional dictionary keys
(`fallback_used`, `llm_error`, `hook_text_used`, `full_text_used`) are
`Option` fields: `none` models the key being absent. -/
structure Insights where
  hook_score : Int
  hook_score_justification : String
  audience_persona : String
  audience_persona_justification : String
  conversion_killers : List Killer
  fallback_used : Option Bool
  llm_error : Option String
  hook_text_used : Option String
  full_text_used : Option String
  deriving DecidableEq, Repr

/-- The `power_words` list of `_fallback_local_analysis`. -/
def powerWords : List String := ["best", "ultimate", "guide", "free", "step-by-step", "proven"]

/-- Hook-score heuristic of `_fallback_local_analysis`: base 30, three
conditional bonuses, clamped by `max(10, min(95, score))`. -/
def fallbackHookScore (hook : String) : Int :=
  let hookLower := lowerStr hook
  let length := (trimL hook.toList).length
  let score : Int := 30
  let score := if length > 20 then score + 15 else score
  let score := if length > 60 then score + 15 else score
  let score := if powerWords.any (fun w => strContains hookLower w) then score + 10 else score
  let score := if strContains hook "?" then score + 5 else score
  max 10 (min 95 score)

def devKeywords : List String := ["developer", "javascript", "react", "frontend"]

def mktKeywords : List String := ["marketing", "brand", "campaign", "conversion"]

def ecomKeywords : List String := ["ecommerce", "shop", "cart", "checkout"]

/-- Audience-persona keyword buckets of `_fallback_local_analysis`,
checked in the source's fixed priority order against the lowered full text. -/
def fallbackPersona (fullLower : String) : String :=
  if devKeywords.any (fun k => strContains fullLower k) then
    "Web developers exploring technical content."
  else if mktKeywords.any (fun k => strContains fullLower k) then
    "Marketing professionals focused on improving conversions."
  else if ecomKeywords.any (fun k => strContains fullLower k) then
    "E-commerce store owners or managers."
  else
    "General online audience interested in this topic."

/-- The `jargon_terms` list of `_fallback_local_analysis`, in source order
(duplicates included, as in the source). -/
def jargonTerms : List String :=
  ["synergy", "low-hanging fruit", "think outside the box", "circle back",
   "touch base", "bandwidth", "core competencies", "actionable items",
   "robust", "cutting-edge", "game changer", "next-generation",
   "state-of-the-art", "best-in-class", "viral", "data-driven", "holistic",
   "mission-critical", "game-changing", "customizable", "scalable",
   "disruptive", "value-add", "bleeding-edge", "rockstar", "ninja",
   "virtually", "leverage", "bandwidth", "action plan", "action item",
   "deep dive", "core competency", "win-win", "optimization",
   "think outside the box", "let\u2019s circle back", "touch base"]

def jargonReason : String :=
  "Jargon can confuse readers; consider using simpler, concrete language."

/-- Conversion-killer scan of `_fallback_local_analysis`: every jargon term
contained in the lowered full text, in list order, then padded with empty
entries (the source's `while` loop) and cut to the first three. -/
def fallbackKillers (fullLower : String) : List Killer :=
  let ks := (jargonTerms.filter (fun t => strContains fullLower t)).map
    (fun t => Killer.mk t jargonReason)
  let ks := ks ++ List.replicate (3 - ks.length) (Killer.mk "" "")
  ks.take 3

def fallbackScoreJust : String :=
  "Score estimated using a simple heuristic (length, power words, punctuation)."

def fallbackPersonaJust : String :=
  "Heuristic guess based on keywords detected in the page content."

/-- The Heuristic Fallback Engine `_fallback_local_analysis(hook_text, full_text)`.
The source's `hook_text or ""` / `full_text or ""` guards only matter for
Python `None` inputs, which the `str`-typed model excludes. -/
def fallback_local_analysis (hook_text full_text : String) : Insights :=
  let hook := hook_text
  let full := full_text
  let fullLower := lowerStr full
  { hook_score := fallbackHookScore hook
    hook_score_justification := fallbackScoreJust
    audience_persona := fallbackPersona fullLower
    audience_persona_justification := fallbackPersonaJust
    conversion_killers := fallbackKillers fullLower
    fallback_used := some true
    llm_error := none
    hook_text_used := none
    full_text_used := none }

/-! ## Response Parser (`_parse_insights_text`)

The parser runs four `re.search` patterns over the stripped text and a
per-line `re.match` over the `CONVERSION_KILLERS` block.  Each pattern is
embedded as a position matcher driven by `searchPos` (leftmost match, as
`re.search`).  Backtracking inside one pattern only arises between a greedy
`\s*` and a following `.+` / digit class; it is modelled exactly where it
can change the outcome and collapsed where a maximal-run scan is provably
the same match (noted at each matcher). -/

def hookScoreLabel : List Char := "HOOK_SCORE:".toList

/-- Matcher for `HOOK_SCORE:\s*([0-9]{1,3})` at one position.  After the
greedy `\s*`, a digit can only start at the end of the maximal whitespace
run (shorter `\s*` matches stop on a whitespace character, which is not a
digit), so no backtracking is needed; `[0-9]{1,3}` greedily captures up to
three characters of the maximal digit run. -/
def matchHookScoreAt (l : List Char) : Option (List Char) :=
  if ciStarts hookScoreLabel l then
    let rest := l.drop hookScoreLabel.length
    let ds := ((rest.dropWhile isWs).takeWhile Char.isDigit).take 3
    if ds.isEmpty then none else some ds
  else none

/-- Hook-score extraction: `grab(r"HOOK_SCORE:\s*([0-9]{1,3})", default="0")`
followed by `max(0, min(100, int(...)))`.  The source's `except ValueError`
branch is unreachable because the captured group is all digits. -/
def parseHookScore (t : List Char) : Int :=
  let ds := (searchPos matchHookScoreAt t).getD ['0']
  max 0 (min 100 ((digitsToNat ds : Int)))

/-- Maximal run of characters matched by `.` without `re.DOTALL`
(anything but a newline). -/
def dotRun (l : List Char) : List Char := l.takeWhile (fun c => c != '\n')

/-- Attempt `(.+)` (no DOTALL) at one position: needs a first non-newline
character, then greedily captures to the end of the line. -/
def tryDotPlus (l : List Char) : Option (List Char) :=
  match l with
  | [] => none
  | c :: _ => if c == '\n' then none else some (dotRun l)

/-- Backtracking of a greedy `\s*` before `(.+)`: try the longest
whitespace prefix first (`i` characters consumed), shrinking on failure. -/
def wsBacktrack (rest : List Char) : Nat → Option (List Char)
  | 0 => tryDotPlus rest
  | i + 1 =>
    match tryDotPlus (rest.drop (i + 1)) with
    | some g => some g
    | none => wsBacktrack rest i

/-- Matcher for `LABEL:\s*(.+)` (IGNORECASE, no DOTALL) at one position. -/
def matchLineValueAt (label : List Char) (l : List Char) : Option (List Char) :=
  if ciStarts label l then
    let rest := l.drop label.length
    wsBacktrack rest (rest.takeWhile isWs).length
  else none

/-- The source's `grab(pattern, name, default)` for the single-line fields:
leftmost search of `LABEL:\s*(.+)`, the captured group stripped, the given
default when no match anywhere. -/
def grabLine (label : List Char) (deflt : String) (t : List Char) : String :=
  match searchPos (matchLineValueAt label) t with
  | some g => (trimL g).asString
  | none => deflt

def hookJustLabel : List Char := "HOOK_SCORE_JUSTIFICATION:".toList

def personaLabel : List Char := "AUDIENCE_PERSONA:".toList

def personaJustLabel : List Char := "AUDIENCE_PERSONA_JUSTIFICATION:".toList

def killersLabel : List Char := "CONVERSION_KILLERS:".toList

/-- Matcher for the label of `CONVERSION_KILLERS:\s*(.+)` (DOTALL),
returning the raw suffix after the label. -/
def matchKillersAt (l : List Char) : Option (List Char) :=
  if ciStarts killersLabel l then some (l.drop killersLabel.length) else none

/-- The `killers_block` computation: with DOTALL, `\s*(.+)` on the suffix
matches exactly when the suffix is non-empty, and the stripped group is the
stripped suffix (greedy `\s*` then `.+` to the end; in the all-whitespace
suffix case backtracking leaves a whitespace-only group that strips to "").
A failed search and a group that strips to "" both yield the empty block. -/
def killersBlock (t : List Char) : List Char :=
  match searchPos matchKillersAt t with
  | some rest => trimL rest
  | none => []

/-- Python `str.splitlines` on the line boundaries the service can see
(`\n`, `\r\n`, `\r`); a trailing terminator opens no further line. -/
def splitLinesGo : List Char → List Char → List (List Char)
  | [], cur => [cur.reverse]
  | '\r' :: '\n' :: rest, cur =>
      cur.reverse :: (if rest.isEmpty then [] else splitLinesGo rest [])
  | '\n' :: rest, cur =>
      cur.reverse :: (if rest.isEmpty then [] else splitLinesGo rest [])
  | '\r' :: rest, cur =>
      cur.reverse :: (if rest.isEmpty then [] else splitLinesGo rest [])
  | c :: rest, cur => splitLinesGo rest (c :: cur)

def splitLines (l : List Char) : List (List Char) :=
  if l.isEmpty then [] else splitLinesGo l []

/-- The separator class `[\).\-\:]` of the killer-line pattern. -/
def isKillerSep (c : Char) : Bool := c == ')' || c == '.' || c == '-' || c == ':'

/-- One iteration of the killer-line loop: strip the line, skip it when
empty, match `^\s*\d+[\).\-\:]\s*(.+)$`, split the stripped body on the
first `|` into `phrase`/`reason` (whole body and empty reason when no `|`),
and keep the entry only when the phrase is non-empty.  Greedy `\d+` needs
no backtracking (a shorter digit run stops on a digit, not a separator);
`\s*(.+)$` on the remainder matches exactly when the remainder is
non-empty, with stripped group equal to the stripped remainder. -/
def killerOfLine (line : List Char) : Option Killer :=
  let line := trimL line
  if line.isEmpty then none
  else
    let afterWs := line.dropWhile isWs
    let ds := afterWs.takeWhile Char.isDigit
    if ds.isEmpty then none
    else
      match afterWs.drop ds.length with
      | [] => none
      | sep :: rest =>
        if isKillerSep sep then
          if rest.isEmpty then none
          else
            let body := trimL rest
            let entry :=
              if body.contains '|' then
                let before := body.takeWhile (fun c => c != '|')
                let after := (body.dropWhile (fun c => c != '|')).drop 1
                Killer.mk (trimL before).asString (trimL after).asString
              else Killer.mk body.asString ""
            if entry.phrase.isEmpty then none else some entry
        else none

/-- The killer-collection loop over the block's lines (`if killers_block:`
guard included). -/
def killersFromBlock (block : List Char) : List Killer :=
  if block.isEmpty then []
  else (splitLines block).filterMap killerOfLine

/-- The parser's pad/trim step: `while len < 3: append empty` then
`if len > 3: keep first 3`. -/
def padKillers (ks : List Killer) : List Killer :=
  let ks := ks ++ List.replicate (3 - ks.length) (Killer.mk "" "")
  if ks.length > 3 then ks.take 3 else ks

def emptyParseMsg : String := "AI returned an empty analysis. Cannot parse."

/-- The Response Parser `_parse_insights_text(text)`.  `Except.error msg`
models `raise LLMServiceError(msg)`; the success record carries no
provenance keys, exactly as the source's result dict. -/
def parse_insights_text (text : String) : Except String Insights :=
  let t := trimL text.toList
  if t.isEmpty then .error emptyParseMsg
  else .ok
    { hook_score := parseHookScore t
      hook_score_justification := grabLine hookJustLabel "" t
      audience_persona := grabLine personaLabel "Unknown audience" t
      audience_persona_justification := grabLine personaJustLabel "" t
      conversion_killers := padKillers (killersFromBlock (killersBlock t))
      fallback_used := none
      llm_error := none
      hook_text_used := none
      full_text_used := none }

/-! ## Model Invoker (`_call_gemini_api`)

One backend attempt (the `model.generate_content` call together with
`_extract_text_from_response`) is modelled as an oracle indexed by the
1-based attempt number.  The fixed prompt string built by the orchestrator
is absorbed into the choice of oracle, since the backend is external. -/

/-- Outcome of one backend attempt: usable raw text, an `LLMServiceError`
raised by the extraction step (blocked / no usable text), or any other
exception with its type name and `str(e)` message. -/
inductive AttemptOutcome where
  | text (raw : String)
  | llmErr (msg : String)
  | exc (ty : String) (msg : String)
  deriving DecidableEq, Repr

/-- The transient-indicator test on `str(e).lower()`. -/
def transientIndicator (msg : String) : Bool :=
  let m := lowerStr msg
  strContains m "unavailable" || strContains m "internal" || strContains m "deadline"

/-- Message of the terminal `LLMServiceError` wrapping a non-`LLMServiceError`
exception (source line formats `{type(e).__name__}: {e}`). -/
def unexpectedMsg (ty msg : String) : String :=
  "Unexpected error during Gemini call: " ++ ty ++ ": " ++ msg

/-- Message of the after-the-loop `LLMServiceError` (the source formats the
last error with `repr`; this model prints type and message).  Reachable only
when `max_retries < 1`, because on the last attempt the in-loop wrap fires. -/
def exhaustedMsg (maxRetries : Nat) (lastError : Option (String × String)) : String :=
  "Gemini call failed after " ++ toString maxRetries ++ " attempts. Last error: " ++
    (match lastError with
     | none => "None"
     | some (ty, m) => ty ++ "(" ++ m ++ ")")

/-- The retry loop `for attempt in range(1, max_retries + 1)`, carrying the
current attempt, the remaining iterations and `last_error`.  The returned
list records the durations (in seconds) of the `time.sleep(2**(attempt-1))`
calls, in order.  An `LLMServiceError` from the attempt is re-raised as is;
any other exception is retried only when its message is transient and
`attempt < max_retries`, otherwise wrapped terminally. -/
def callLoop (backend : Nat → AttemptOutcome) (maxRetries : Nat) :
    Nat → Nat → Option (String × String) → Except String String × List Nat
  | _, 0, lastError => (.error (exhaustedMsg maxRetries lastError), [])
  | attempt, fuel + 1, _ =>
    match backend attempt with
    | .text raw => (.ok raw, [])
    | .llmErr m => (.error m, [])
    | .exc ty m =>
      if transientIndicator m ∧ attempt < maxRetries then
        let r := callLoop backend maxRetries (attempt + 1) fuel (some (ty, m))
        (r.1, 2 ^ (attempt - 1) :: r.2)
      else
        (.error (unexpectedMsg ty m), [])

/-- The Model Invoker `_call_gemini_api`.  `configError` models
`_ensure_client` raising an `LLMServiceError` before the loop when the API
key is missing or client configuration fails; `Except.error` models a
raised `LLMServiceError`. -/
def call_gemini_api (configError : Option String) (backend : Nat → AttemptOutcome)
    (maxRetries : Nat) : Except String String × List Nat :=
  match configError with
  | some e => (.error e, [])
  | none => callLoop backend maxRetries 1 maxRetries none

/-! ## Configuration (`settings.py` and the invoker's defaults) -/

/-- `settings.py`: module-level default `MAX_RETRIES = 5`. -/
def MAX_RETRIES : Nat := 5

/-- `settings.py`: module-level default `LLM_MODEL_NAME = "gemini-2.5-flash"`. -/
def LLM_MODEL_NAME : String := "gemini-2.5-flash"

/-- `llm_service.py`: `DEFAULT_MAX_RETRIES = 3`, the third argument of
`getattr(SETTINGS, "gemini_max_retries", DEFAULT_MAX_RETRIES)`. -/
def DEFAULT_MAX_RETRIES : Nat := 3

/-- `llm_service.py`: `DEFAULT_GEMINI_MODEL = "gemini-1.5-flash"`. -/
def DEFAULT_GEMINI_MODEL : String := "gemini-1.5-flash"

/-- The environment variables `AppSettings.__init__` reads for the invoker. -/
structure EnvVars where
  gemini_max_retries : Option String
  gemini_model : Option String
  deriving Repr

/-- The attributes `AppSettings.__init__` always sets on the instance. -/
structure AppSettings where
  gemini_model : String
  gemini_max_retries : Nat
  deriving DecidableEq, Repr

/-- Python `int(s)` on a plain non-negative decimal string, `none` modelling
a raised `ValueError`. -/
def pyIntOfString (s : String) : Option Nat :=
  let l := trimL s.toList
  if l.isEmpty then none
  else if l.all Char.isDigit then some (digitsToNat l) else none

/-- `AppSettings.__init__`: `gemini_model = os.getenv("GEMINI_MODEL",
LLM_MODEL_NAME)` and `gemini_max_retries = int(os.getenv("GEMINI_MAX_RETRIES",
MAX_RETRIES))` (the `int` of the default `5` is the identity). -/
def mkAppSettings (env : EnvVars) : Option AppSettings :=
  match env.gemini_max_retries with
  | none => some ⟨env.gemini_model.getD LLM_MODEL_NAME, MAX_RETRIES⟩
  | some s => (pyIntOfString s).map (fun n => ⟨env.gemini_model.getD LLM_MODEL_NAME, n⟩)

/-- The invoker's `max_retries = getattr(SETTINGS, "gemini_max_retries",
DEFAULT_MAX_RETRIES)`: `AppSettings.__init__` always sets the attribute,
so the `getattr` default `DEFAULT_MAX_RETRIES` is never consulted. -/
def effectiveMaxRetries (s : AppSettings) : Nat := s.gemini_max_retries

/-! ## Insight Orchestrator (`analyze_marketing_insights`) -/

/-- The orchestrator `analyze_marketing_insights(hook_text, full_text)`:
call the invoker, parse on success, and on any `LLMServiceError` from
either step substitute the fallback result with the error message attached
as `llm_error`; finally attach both input copies.  The function is total:
no error escapes. -/
def analyze_marketing_insights (configError : Option String)
    (backend : Nat → AttemptOutcome) (maxRetries : Nat)
    (hook_text full_text : String) : Insights :=
  let insights :=
    match (call_gemini_api configError backend maxRetries).1 with
    | .ok raw =>
      match parse_insights_text raw with
      | .ok ins => { ins with fallback_used := some false }
      | .error e => { fallback_local_analysis hook_text full_text with llm_error := some e }
    | .error e => { fallback_local_analysis hook_text full_text with llm_error := some e }
  { insights with hook_text_used := some hook_text, full_text_used := some full_text }

/-! ## Concrete values used by witness theorems -/

/-- Concrete parse result used by the C2 witness. -/
def insW2 : Insights :=
  ⟨5, "", "Unknown audience", "", [⟨"", ""⟩, ⟨"", ""⟩, ⟨"", ""⟩], none, none, none, none⟩

/-- Concrete 70-character hook containing "free" and "?", used by C8. -/
def hookW8 : String := ((List.replicate 65 'x') ++ "free?".toList).asString

/-- Backend used by the C4 witness: two transient failures, then success. -/
def bkW4a : Nat → AttemptOutcome
  | 1 => .exc "ServiceUnavailable" "503 The service is UNAVAILABLE."
  | 2 => .exc "DeadlineExceeded" "Deadline expired before operation could complete."
  | _ => .text "HOOK_SCORE: 82"

/-- Backend used by the C4 witness: a non-transient failure. -/
def bkW4b : Nat → AttemptOutcome := fun _ => .exc "ValueError" "bad request"

/-- Backend used by the C4 witness: transient failures on every attempt. -/
def bkW4c : Nat → AttemptOutcome
  | 1 => .exc "InternalServerError" "500 internal error"
  | 2 => .exc "InternalServerError" "500 internal error"
  | _ => .exc "ServiceUnavailable" "503 unavailable"

/-- Backend used by the C1 witness. -/
def bkW1 : Nat → AttemptOutcome := fun _ => .text "HOOK_SCORE: 10"

/-! ## Helper lemmas -/

theorem toList_asString (l : List Char) : (l.asString).toList = l := rfl

/-- The pad/trim step always yields the first three candidates padded with
empty entries, in candidate order. -/
theorem padKillers_spec (ks : List Killer) :
    padKillers ks = ks.take 3 ++ List.replicate (3 - ks.length) (Killer.mk "" "") := by
  simp only [padKillers]
  split
  · rename_i h
    simp only [List.length_append, List.length_replicate] at h
    have h3 : 3 ≤ ks.length := by omega
    rw [Nat.sub_eq_zero_of_le h3]
    simp
  · rename_i h
    simp only [List.length_append, List.length_replicate] at h
    have h3 : ks.length ≤ 3 := by omega
    rw [List.take_of_length_le h3]

theorem padKillers_length (ks : List Killer) : (padKillers ks).length = 3 := by
  rw [padKillers_spec]
  simp only [List.length_append, List.length_replicate, List.length_take]
  omega

theorem fallbackKillers_length (fullLower : String) :
    (fallbackKillers fullLower).length = 3 := by
  unfold fallbackKillers
  simp only [List.length_take, List.length_append, List.length_replicate]
  omega

/-! ## Claim theorems -/

/-- C5: every parser input that is empty after trimming fails with the
parser's `LLMServiceError` (the `ParseError` of the spec) and never
returns a result. -/
theorem parse_empty_input_fails (text : String) (h : trimL text.toList = []) :
    parse_insights_text text = .error emptyParseMsg := by
  unfold parse_insights_text
  rw [h]
  rfl

theorem parse_empty_input_fails_witness :
    parse_insights_text "  \n\t " = .error emptyParseMsg :=
  parse_empty_input_fails "  \n\t " (by decide)

/-- C2: `conversion_killers` has length exactly 3 on the parser path and on
the fallback path; the forcing step keeps the first three candidates in
order and pads with empty `{phrase, reason}` pairs. -/
theorem conversion_killers_length_three :
    (∀ (text : String) (ins : Insights), parse_insights_text text = .ok ins →
        ins.conversion_killers.length = 3 ∧
        ins.conversion_killers =
          (killersFromBlock (killersBlock (trimL text.toList))).take 3 ++
            List.replicate (3 - (killersFromBlock (killersBlock (trimL text.toList))).length)
              (Killer.mk "" "")) ∧
    (∀ hook_text full_text : String,
        (fallback_local_analysis hook_text full_text).conversion_killers.length = 3) := by
  constructor
  · intro text ins h
    simp only [parse_insights_text] at h
    split at h
    · exact absurd h (by simp)
    · rw [Except.ok.injEq] at h
      subst h
      exact ⟨padKillers_length _, padKillers_spec _⟩
  · intro hook_text full_text
    exact fallbackKillers_length _

theorem conversion_killers_length_three_witness :
    parse_insights_text "HOOK_SCORE: 5" = .ok insW2 ∧
      insW2.conversion_killers.length = 3 :=
  ⟨rfl, (conversion_killers_length_three.1 "HOOK_SCORE: 5" insW2 rfl).1⟩

/-- C9 counterexample: with no retry count supplied in the environment, the
settings attribute the invoker reads is `5` (from `settings.MAX_RETRIES`),
not `3`. -/
theorem default_max_retries_not_three :
    ¬ (mkAppSettings ⟨none, none⟩).map effectiveMaxRetries = some 3 := by decide

/-- C9 amended: when no retry count is supplied, `AppSettings` sets
`gemini_max_retries` to `settings.MAX_RETRIES = 5`, and because the
attribute is always present, the invoker's effective `max_retries` is 5;
the invoker's own `DEFAULT_MAX_RETRIES = 3` is never consulted. -/
theorem default_max_retries_is_five :
    (mkAppSettings ⟨none, none⟩).map effectiveMaxRetries = some 5 ∧
      MAX_RETRIES = 5 ∧ DEFAULT_MAX_RETRIES = 3 := by decide

/-- C7: a `CONVERSION_KILLERS` block with lines `"1) foo | bar"` and
`"2) baz"` parses to exactly `[{foo,bar}, {baz,""}, {"",""}]`: a numbered
line splits on the first `|` into trimmed phrase and reason, a line without
`|` becomes a phrase with empty reason, and the list is padded with empty
pairs to length 3. -/
theorem killers_block_example :
    killerOfLine "1) foo | bar".toList = some (Killer.mk "foo" "bar") ∧
    killerOfLine "2) baz".toList = some (Killer.mk "baz" "") ∧
    (parse_insights_text "HOOK_SCORE: 50\nCONVERSION_KILLERS:\n1) foo | bar\n2) baz").map
        Insights.conversion_killers =
      .ok [Killer.mk "foo" "bar", Killer.mk "baz" "", Killer.mk "" ""] :=
  ⟨rfl, rfl, rfl⟩

/-- C8: the fallback hook score is base 30, +15 for trimmed length > 20,
+15 more for length > 60, +10 for a power word, +5 for a "?", clamped to
[10, 95]; a hook of length 70 containing "free" and "?" scores 75. -/
theorem fallback_hook_score_formula :
    (∀ hook_text full_text : String,
      (fallback_local_analysis hook_text full_text).hook_score =
        max 10 (min 95 ((30 : Int) +
          (if (trimL hook_text.toList).length > 20 then 15 else 0) +
          (if (trimL hook_text.toList).length > 60 then 15 else 0) +
          (if powerWords.any (fun w => strContains (lowerStr hook_text) w) then 10 else 0) +
          (if strContains hook_text "?" then 5 else 0)))) ∧
    (trimL hookW8.toList).length = 70 ∧
    strContains (lowerStr hookW8) "free" = true ∧
    strContains hookW8 "?" = true ∧
    (fallback_local_analysis hookW8 "").hook_score = 75 := by
  refine ⟨?_, by decide, by decide, by decide, by decide⟩
  intro hook_text full_text
  simp only [fallback_local_analysis, fallbackHookScore]
  split_ifs <;> omega

/-- C10: the fallback hook score always lies in [30, 75]; the bonuses sum
to at most 45 over the base 30, so the `max(10, min(95, score))` clamp
never changes the computed sum. -/
theorem fallback_hook_score_range :
    ∀ hook_text full_text : String,
      30 ≤ (fallback_local_analysis hook_text full_text).hook_score ∧
      (fallback_local_analysis hook_text full_text).hook_score ≤ 75 ∧
      (fallback_local_analysis hook_text full_text).hook_score =
        (30 : Int) +
          (if (trimL hook_text.toList).length > 20 then 15 else 0) +
          (if (trimL hook_text.toList).length > 60 then 15 else 0) +
          (if powerWords.any (fun w => strContains (lowerStr hook_text) w) then 10 else 0) +
          (if strContains hook_text "?" then 5 else 0) := by
  intro hook_text full_text
  simp only [fallback_local_analysis, fallbackHookScore]
  split_ifs <;> omega

/-- Every successful parse leaves the optional provenance keys absent. -/
theorem parse_ok_fields (text : String) (ins : Insights)
    (h : parse_insights_text text = .ok ins) :
    ins.llm_error = none ∧ ins.fallback_used = none := by
  simp only [parse_insights_text] at h
  split at h
  · exact absurd h (by simp)
  · rw [Except.ok.injEq] at h
    subst h
    exact ⟨rfl, rfl⟩

/-- C4: with `max_retries = 3`, a backend raising transient-indicator
errors on the first two attempts and succeeding on the third makes the
invoker return the successful text after exactly two backoff sleeps of
`2^(attempt-1)` seconds, i.e. 1s then 2s; a non-transient error yields an
immediate terminal `LLMServiceError` carrying the original cause; three
transient failures exhaust the attempts and yield the terminal
`LLMServiceError` carrying the last cause. -/
theorem retry_backoff_behavior
    (b1 b2 b3 : Nat → AttemptOutcome) (raw t1 m1 t2 m2 ty m u1 v1 u2 v2 u3 v3 : String)
    (h1 : b1 1 = .exc t1 m1) (ht1 : transientIndicator m1 = true)
    (h2 : b1 2 = .exc t2 m2) (ht2 : transientIndicator m2 = true)
    (h3 : b1 3 = .text raw)
    (g1 : b2 1 = .exc ty m) (gt : transientIndicator m = false)
    (k1 : b3 1 = .exc u1 v1) (kt1 : transientIndicator v1 = true)
    (k2 : b3 2 = .exc u2 v2) (kt2 : transientIndicator v2 = true)
    (k3 : b3 3 = .exc u3 v3) (kt3 : transientIndicator v3 = true) :
    call_gemini_api none b1 3 = (.ok raw, [1, 2]) ∧
    call_gemini_api none b2 3 = (.error (unexpectedMsg ty m), []) ∧
    call_gemini_api none b3 3 = (.error (unexpectedMsg u3 v3), [1, 2]) := by
  refine ⟨?_, ?_, ?_⟩
  · simp [call_gemini_api, callLoop, h1, h2, h3, ht1, ht2]
  · simp [call_gemini_api, callLoop, g1, gt]
  · simp [call_gemini_api, callLoop, k1, k2, k3, kt1, kt2, kt3]

theorem retry_backoff_behavior_witness :
    call_gemini_api none bkW4a 3 = (.ok "HOOK_SCORE: 82", [1, 2]) ∧
    call_gemini_api none bkW4b 3 =
      (.error (unexpectedMsg "ValueError" "bad request"), []) ∧
    call_gemini_api none bkW4c 3 =
      (.error (unexpectedMsg "ServiceUnavailable" "503 unavailable"), [1, 2]) :=
  retry_backoff_behavior bkW4a bkW4b bkW4c
    "HOOK_SCORE: 82" "ServiceUnavailable" "503 The service is UNAVAILABLE."
    "DeadlineExceeded" "Deadline expired before operation could complete."
    "ValueError" "bad request"
    "InternalServerError" "500 internal error"
    "InternalServerError" "500 internal error"
    "ServiceUnavailable" "503 unavailable"
    rfl (by decide) rfl (by decide) rfl rfl (by decide)
    rfl (by decide) rfl (by decide) rfl (by decide)

/-- C1: `analyze_marketing_insights` is a total function of its inputs
(it never re-raises), and whenever the Model Invoker or the Response
Parser fails with an `LLMServiceError` (the spec's ServiceError /
ConfigurationError / ParseError), it returns exactly the Heuristic
Fallback Engine's result with the caught error's message attached as
`llm_error` and the input copies attached. -/
theorem analyze_absorbs_errors
    (configError : Option String) (backend : Nat → AttemptOutcome) (maxRetries : Nat)
    (hook_text full_text : String) (e : String)
    (h : (call_gemini_api configError backend maxRetries).1 = .error e ∨
         (∃ raw, (call_gemini_api configError backend maxRetries).1 = .ok raw ∧
            parse_insights_text raw = .error e)) :
    analyze_marketing_insights configError backend maxRetries hook_text full_text =
      { fallback_local_analysis hook_text full_text with
          llm_error := some e
          hook_text_used := some hook_text
          full_text_used := some full_text } := by
  rcases h with hc | ⟨raw, hc, hp⟩
  · simp [analyze_marketing_insights, hc]
  · simp [analyze_marketing_insights, hc, hp]

theorem analyze_absorbs_errors_witness :
    analyze_marketing_insights (some "Missing API key.") bkW1 3 "hook" "full" =
      { fallback_local_analysis "hook" "full" with
          llm_error := some "Missing API key."
          hook_text_used := some "hook"
          full_text_used := some "full" } :=
  analyze_absorbs_errors (some "Missing API key.") bkW1 3 "hook" "full"
    "Missing API key." (Or.inl rfl)

/-- C6: `fallback_used` is `false` exactly on the successful
model-and-parse path and `true` exactly when the fallback engine produced
the result, and `llm_error` is absent precisely when `fallback_used` is
false. -/
theorem fallback_used_iff
    (configError : Option String) (backend : Nat → AttemptOutcome) (maxRetries : Nat)
    (hook_text full_text : String) :
    ((analyze_marketing_insights configError backend maxRetries hook_text full_text).fallback_used
        = some false ↔
      (∃ raw ins, (call_gemini_api configError backend maxRetries).1 = .ok raw ∧
        parse_insights_text raw = .ok ins)) ∧
    ((analyze_marketing_insights configError backend maxRetries hook_text full_text).fallback_used
        = some true ↔
      ¬ (∃ raw ins, (call_gemini_api configError backend maxRetries).1 = .ok raw ∧
        parse_insights_text raw = .ok ins)) ∧
    ((analyze_marketing_insights configError backend maxRetries hook_text full_text).llm_error
        = none ↔
      (analyze_marketing_insights configError backend maxRetries hook_text full_text).fallback_used
        = some false) := by
  cases hc : (call_gemini_api configError backend maxRetries).1 with
  | error e =>
    refine ⟨?_, ?_, ?_⟩ <;> simp [analyze_marketing_insights, hc, fallback_local_analysis]
  | ok raw =>
    cases hp : parse_insights_text raw with
    | error e =>
      refine ⟨?_, ?_, ?_⟩ <;> simp [analyze_marketing_insights, hc, hp, fallback_local_analysis]
    | ok ins0 =>
      have hf := parse_ok_fields raw ins0 hp
      refine ⟨?_, ?_, ?_⟩ <;> simp [analyze_marketing_insights, hc, hp, hf.1]

/-! ## Hook-score extraction (C3) -/

/-- Decimal digits are not whitespace. -/
theorem digit_not_ws (c : Char) (h : c.isDigit = true) : isWs c = false := by
  by_contra hw
  rw [Bool.not_eq_false] at hw
  simp only [isWs, Char.isWhitespace, Bool.or_eq_true, decide_eq_true_eq] at hw
  rcases hw with ((h1 | h1) | h1) | h1 <;> subst h1 <;> simp [Char.isDigit] at h

/-- Trailing-whitespace removal yields a prefix of the original list. -/
theorem trimR_front (l : List Char) : trimR l <+: l := by
  rw [← List.reverse_suffix]
  unfold trimR
  rw [List.reverse_reverse]
  exact List.dropWhile_suffix isWs

/-- Stripping a concatenation whose left part starts and ends with
non-whitespace characters only strips the right part's tail. -/
theorem trimL_append_non_ws (a : Char) (A' B : List Char) (A0 : List Char) (aL : Char)
    (ha : isWs a = false) (haL : isWs aL = false)
    (hA : a :: A' = A0 ++ [aL]) :
    trimL ((a :: A') ++ B) = (a :: A') ++ trimR B := by
  unfold trimL trimR
  rw [List.cons_append, List.dropWhile_cons_of_neg (by simp [ha]), ← List.cons_append,
    List.reverse_append, hA, List.reverse_concat, List.dropWhile_append]
  split
  · rename_i hemp
    rw [List.isEmpty_iff] at hemp
    rw [hemp, List.dropWhile_cons_of_neg (by simp [haL])]
    simp [List.reverse_concat]
  · rw [List.reverse_append]
    simp [List.reverse_concat]

/-- Every list is a case-insensitive prefix of itself followed by anything. -/
theorem ciStarts_append_self (n r : List Char) : ciStarts n (n ++ r) = true := by
  induction n with
  | nil => rfl
  | cons c cs ih => simp [ciStarts, ih]

/-- Leftmost search succeeds immediately when the matcher succeeds at the
first position. -/
theorem searchPos_head_some {α : Type} (f : List Char → Option α) (l : List Char) (r : α)
    (h : f l = some r) : searchPos f l = some r := by
  cases l with
  | nil => simpa [searchPos] using h
  | cons c rest => simp [searchPos, h]

/-- The `HOOK_SCORE` matcher at the start of a stripped `HOOK_SCORE: <digits>`
line captures exactly the digit run (at most 3 digits). -/
theorem matchHookScoreAt_at_label (ds tail : List Char) (hne : ds ≠ [])
    (hlen : ds.length ≤ 3) (hdig : ∀ c ∈ ds, c.isDigit = true)
    (htail : tail = [] ∨ ∃ r', tail = '\n' :: r') :
    matchHookScoreAt ("HOOK_SCORE: ".toList ++ ds ++ tail) = some ds := by
  have hsplit : "HOOK_SCORE: ".toList ++ ds ++ tail = hookScoreLabel ++ (' ' :: (ds ++ tail)) := by
    simp [hookScoreLabel]
  obtain ⟨d, ds2, rfl⟩ : ∃ d ds2, ds = d :: ds2 := by
    cases ds with
    | nil => exact absurd rfl hne
    | cons d ds2 => exact ⟨d, ds2, rfl⟩
  have hd : ¬ isWs d = true := by simp [digit_not_ws d (hdig d (by simp))]
  have h1 : List.dropWhile isWs (' ' :: (d :: ds2 ++ tail)) = d :: ds2 ++ tail := by
    rw [List.dropWhile_cons_of_pos (by decide)]
    exact List.dropWhile_cons_of_neg hd
  have htw : tail.takeWhile Char.isDigit = [] := by
    rcases htail with rfl | ⟨r', rfl⟩
    · rfl
    · rw [List.takeWhile_cons_of_neg (by decide)]
  have h2 : List.takeWhile Char.isDigit (d :: ds2 ++ tail) = d :: ds2 := by
    rw [show d :: ds2 ++ tail = (d :: ds2) ++ tail from rfl,
      List.takeWhile_append_of_pos hdig, htw, List.append_nil]
  unfold matchHookScoreAt
  rw [hsplit]
  rw [ciStarts_append_self, if_pos rfl, List.drop_left]
  simp only [h1, h2, List.take_of_length_le hlen]
  simp [hne]

/-- C3: for every well-formed parser input holding a `HOOK_SCORE` line with
a 1-3 digit value `n`, the parser returns `n` clamped into [0,100] (so
values up to 100 come back exactly and larger ones such as 150 clamp to
100, rather than being rejected), and when the `HOOK_SCORE` pattern is
absent the parser returns hook score 0 instead of failing. -/
theorem hook_score_parse_spec :
    (∀ (ds rest : List Char), ds ≠ [] → ds.length ≤ 3 → (∀ c ∈ ds, c.isDigit = true) →
      (parse_insights_text (("HOOK_SCORE: ".toList ++ ds ++ '\n' :: rest).asString)).map
          Insights.hook_score =
        .ok (min 100 ((digitsToNat ds : Int)))) ∧
    (∀ (text : String),
      searchPos matchHookScoreAt (trimL text.toList) = none →
      ¬ trimL text.toList = [] →
      (parse_insights_text text).map Insights.hook_score = .ok 0) := by
  constructor
  · intro ds rest hne hlen hdig
    obtain ⟨dsI, dL, hds⟩ : ∃ L b, ds = L ++ [b] := by
      rcases ds.eq_nil_or_concat with h | ⟨L, b, h⟩
      · exact absurd h hne
      · exact ⟨L, b, by simpa [List.concat_eq_append] using h⟩
    have hdL : isWs dL = false := digit_not_ws dL (hdig dL (by simp [hds]))
    have hconsA : "HOOK_SCORE: ".toList ++ ds = 'H' :: ("OOK_SCORE: ".toList ++ ds) := rfl
    have hconcA : 'H' :: ("OOK_SCORE: ".toList ++ ds) =
        ("HOOK_SCORE: ".toList ++ dsI) ++ [dL] := by
      rw [← hconsA, hds, ← List.append_assoc]
    have htrim : trimL ("HOOK_SCORE: ".toList ++ ds ++ '\n' :: rest) =
        "HOOK_SCORE: ".toList ++ ds ++ trimR ('\n' :: rest) := by
      rw [hconsA]
      exact trimL_append_non_ws 'H' _ _ _ dL (by decide) hdL hconcA
    have htail : trimR ('\n' :: rest) = [] ∨ ∃ r', trimR ('\n' :: rest) = '\n' :: r' := by
      have hp := trimR_front ('\n' :: rest)
      rw [List.prefix_cons_iff] at hp
      rcases hp with h | ⟨t, ht, _⟩
      · exact Or.inl h
      · exact Or.inr ⟨t, ht⟩
    have hsearch : searchPos matchHookScoreAt
        (trimL ("HOOK_SCORE: ".toList ++ ds ++ '\n' :: rest)) = some ds := by
      rw [htrim]
      exact searchPos_head_some _ _ _ (matchHookScoreAt_at_label ds _ hne hlen hdig htail)
    have hne2 : (trimL ("HOOK_SCORE: ".toList ++ ds ++ '\n' :: rest)).isEmpty = false := by
      rw [htrim]
      rfl
    simp only [parse_insights_text, toList_asString, hne2, Bool.false_eq_true, if_false]
    simp only [Except.map, Insights.hook_score, parseHookScore, hsearch, Option.getD_some]
    congr 1
    omega
  · intro text hnone hne
    have hne2 : (trimL text.toList).isEmpty = false := by
      cases hh : (trimL text.toList).isEmpty
      · rfl
      · exact absurd (List.isEmpty_iff.mp hh) hne
    simp only [parse_insights_text, hne2, Bool.false_eq_true, if_false]
    simp only [Except.map, Insights.hook_score, parseHookScore, hnone, Option.getD_none]
    rfl

theorem hook_score_parse_spec_witness :
    (parse_insights_text (("HOOK_SCORE: ".toList ++ ['1', '5', '0'] ++ '\n' :: []).asString)).map
        Insights.hook_score = .ok (min 100 ((digitsToNat ['1', '5', '0'] : Int))) ∧
    (min 100 ((digitsToNat ['1', '5', '0'] : Int)) = 100 ∧ digitsToNat ['1', '5', '0'] = 150) ∧
    (parse_insights_text "no score here").map Insights.hook_score = .ok 0 :=
  ⟨hook_score_parse_spec.1 ['1', '5', '0'] [] (by decide) (by decide) (by decide),
   ⟨by decide, by decide⟩,
   hook_score_parse_spec.2 "no score here" (by decide) (by decide)⟩

end Mia
